import Mathlib

/-!
Shallow embedding of the update rules of the `flare` reinforcement-learning
repository (files `flare/qpolgrad/td3.py` and `flare/polgrad/a2c_old.py`).

Tensors are embedded as `List ℚ` (elementwise semantics of the vectorized
torch operations); a network's parameter set is a `List (List ℚ)` (one inner
list per parameter tensor, flattened).  Gradient steps produced by the Adam
optimizer are opaque functions on the parameter state, since the embedding
does not model automatic differentiation; everything that the update rules do
around those steps (control flow, loss formulas, event ordering, target
blending, iterator state) is modelled faithfully from the source.
-/

/-- `tensor.mean()` on a flat tensor: sum divided by length. -/
def listMean (xs : List ℚ) : ℚ := xs.sum / xs.length

/-- `torch.clamp(x, lo, hi)` on one element: `min(max(x, lo), hi)`. -/
def clamp (x lo hi : ℚ) : ℚ := min (max x lo) hi

namespace TD3

/-- `td3.py` line 102: `epsilon = torch.clamp(epsilon, -self.noise_clip,
self.noise_clip)` applied elementwise to the sampled noise tensor. -/
def clippedEpsilon (noise_clip : ℚ) (eps : List ℚ) : List ℚ :=
  eps.map (fun e => clamp e (-noise_clip) noise_clip)

/-- `td3.py` lines 103-104: `a2 = pi_targ + epsilon; a2 = torch.clamp(a2,
-self.act_limit, self.act_limit)` elementwise. -/
def smoothedAction (noise_clip act_limit : ℚ) (pi_targ eps : List ℚ) : List ℚ :=
  (List.zipWith (fun p e => p + e) pi_targ (clippedEpsilon noise_clip eps)).map
    (fun x => clamp x (-act_limit) act_limit)

/-- `td3.py` line 109: `q_pi_targ = torch.min(q1_pi_targ, q2_pi_targ)`,
the elementwise minimum of the two target Q-value tensors. -/
def q_pi_targ (q1t q2t : List ℚ) : List ℚ := List.zipWith min q1t q2t

/-- `td3.py` line 110: `backup = r + self.gamma * (1 - d) * q_pi_targ`
elementwise over the reward, done and min-target-Q tensors. -/
def backup (gamma : ℚ) (r d q : List ℚ) : List ℚ :=
  List.zipWith (fun rd qv => rd.1 + gamma * (1 - rd.2) * qv) (r.zip d) q

/-- `td3.py` lines 158-159: `p_targ.data.mul_(self.polyak);
p_targ.data.add_((1 - self.polyak) * p.data)` on one parameter tensor. -/
def polyakBlendParam (polyak : ℚ) (t w : List ℚ) : List ℚ :=
  List.zipWith (fun tv wv => tv * polyak + (1 - polyak) * wv) t w

/-- `td3.py` lines 155-159: the loop `for p, p_targ in zip(self.ac.parameters(),
self.ac_targ.parameters())` blending every target parameter tensor toward its
online counterpart, in one pass over the full parameter set. -/
def polyakUpdate (polyak : ℚ) (targ online : List (List ℚ)) : List (List ℚ) :=
  List.zipWith (polyakBlendParam polyak) targ online

/-- The mutable trainer state that `TD3.update` touches: the online policy
parameters, the online Q-function parameters (both Q-functions, in
`ac.parameters()` order), and the target-network parameter set. -/
structure MState where
  pol : List (List ℚ)
  q : List (List ℚ)
  targ : List (List ℚ)
deriving DecidableEq, Repr

/-- `td3.py` lines 122-159, `TD3.update(data, timer)` as a transition on
`MState`.  `qStep` and `polStep` are the opaque effects of the two Adam
gradient steps (lines 124-127 and 141-144).  The Q step always runs; the
policy step and the polyak target blend run only when
`timer % policy_delay == 0`; the blend reads the online parameters after
both gradient steps of the call. -/
def update (qStep polStep : List (List ℚ) → List (List ℚ)) (polyak : ℚ)
    (policy_delay timer : ℕ) (s : MState) : MState :=
  let q1 := qStep s.q
  if timer % policy_delay = 0 then
    let pol1 := polStep s.pol
    ⟨pol1, q1, polyakUpdate polyak s.targ (pol1 ++ q1)⟩
  else
    ⟨s.pol, q1, s.targ⟩

/-- A Python iterator over parameter indices: it holds exactly the items it
has not yet yielded.  `itertools.chain` returns such a one-shot iterator. -/
structure ParamIter where
  remaining : List ℕ
deriving DecidableEq, Repr

/-- Fully draining a Python iterator, as `list(params)` inside the
`torch.optim.Adam` constructor does: yields everything left and leaves the
iterator exhausted. -/
def iterDrain (it : ParamIter) : List ℕ × ParamIter := (it.remaining, ⟨[]⟩)

/-- `for p in it: p.requires_grad = b` over a parameter iterator: sets the
flag of every index the iterator still yields and exhausts the iterator.
`flags` holds the `requires_grad` flag of each Q-function parameter. -/
def iterSetGrad (it : ParamIter) (b : Bool) (flags : List Bool) :
    List Bool × ParamIter :=
  (flags.enum.map (fun fi => if fi.1 ∈ it.remaining then b else fi.2), ⟨[]⟩)

/-- The trainer state relevant to Q-parameter gradient freezing:
`self.q_params` (an iterator, per `td3.py` line 76), the parameter list the
Adam optimizer captured, and each Q parameter's `requires_grad` flag. -/
structure FreezeState where
  q_params : ParamIter
  adamParams : List ℕ
  requiresGrad : List Bool
deriving DecidableEq, Repr

/-- `td3.py` lines 74-77, `TD3.setup_optimizers`: `self.q_params =
chain(self.ac.qfunc1.parameters(), self.ac.qfunc2.parameters())` builds a
one-shot iterator over the `nq` Q parameters (indices `0..nq-1`, every flag
initially `true` as torch parameters default to `requires_grad=True`); the
`Adam(self.q_params, lr=q_lr)` constructor then drains that iterator. -/
def setup_optimizers (nq : ℕ) : FreezeState :=
  let it : ParamIter := ⟨List.range nq⟩
  let d := iterDrain it
  ⟨d.2, d.1, List.replicate nq true⟩

/-- `td3.py` lines 137-138: the freeze loop
`for p in self.q_params: p.requires_grad = False` run on the current state. -/
def freezeQ (s : FreezeState) : FreezeState :=
  let r := iterSetGrad s.q_params false s.requiresGrad
  ⟨r.2, s.adamParams, r.1⟩

end TD3

namespace A2C

/-- `a2c_old.py` lines 86-87: `calc_pol_loss(logps, advs) =
-(logps*advs).mean()`. -/
def calc_pol_loss (logps advs : List ℚ) : ℚ :=
  -(listMean (List.zipWith (fun l a => l * a) logps advs))

/-- `a2c_old.py` lines 89-90: `calc_val_loss(vals, rets) =
((vals - rets)**2).mean()`. -/
def calc_val_loss (vals rets : List ℚ) : ℚ :=
  listMean (List.zipWith (fun v r => (v - r) ^ 2) vals rets)

/-- The observable events of one `A2C.update()` call, in execution order:
the single `buffer.get()`, the KL comparison (with the KL value it
compared), the warning log when it fires, the policy optimizer step, each
value optimizer step (recording the batch it used), and the final
`logger.store`. -/
inductive Ev
  | bufGet
  | klCheck (kl : ℚ)
  | klWarn
  | polStep
  | valStep (states rets : List ℚ)
  | store
deriving DecidableEq, Repr

/-- The collaborators of `A2C.update`, over parameter state types `P`
(policy network) and `V` (value network): the two forward passes, the
opaque effect of one Adam step on each network (the step at lines 110-112
and 118-120 includes `backward` and `mpi_avg_grads`), and the `mpi_avg`
cross-worker scalar mean used by the KL check. -/
structure Model (P V : Type) where
  logpAt : P → List ℚ → List ℚ → List ℚ
  valuesAt : V → List ℚ → List ℚ
  polStepOn : P → P
  valStepOn : V → V
  mpiAvg : ℚ → ℚ

/-- The metrics pushed to `self.logger.store` at `a2c_old.py`
lines 122-129, by keyword name. -/
structure Stored where
  PolicyLoss : ℚ
  ValueLoss : ℚ
  KL : ℚ
  Entropy : ℚ
  DeltaPolLoss : ℚ
  DeltaValLoss : ℚ
deriving DecidableEq, Repr

/-- Everything one `A2C.update()` call produces: the event trace, the
stored metrics, the returned tuple `(pol_loss, val_loss, approx_ent, kl)`,
and the final network parameter states. -/
structure Result (P V : Type) where
  trace : List Ev
  stored : Stored
  ret : ℚ × ℚ × ℚ × ℚ
  polParams : P
  valParams : V

/-- `a2c_old.py` lines 114-120: the value loop, `n` iterations of
`values = value_f(states); val_loss = calc_val_loss(values, rets);
backward; mpi_avg_grads; value_optimizer.step()` on the same
`(states, rets)` batch.  Returns the final value parameters, the `val_loss`
from the last executed iteration (`last` stands for the Python variable's
prior binding and is only returned when `n = 0`), and the events. -/
def valueLoop (M : Model P V) (states rets : List ℚ) :
    ℕ → V → ℚ → V × ℚ × List Ev
  | 0, v, last => (v, last, [])
  | n + 1, v, _ =>
      let values := M.valuesAt v states
      let vloss := calc_val_loss values rets
      let rest := valueLoop M states rets n (M.valStepOn v) vloss
      (rest.1, rest.2.1, Ev.valStep states rets :: rest.2.2)

/-- `a2c_old.py` lines 92-130, `A2C.update()`.  The batch
`(states, acts, advs, rets, logprobs_old)` is the tuple from the single
`buffer.get()` call at line 94.  Mirrors the source line by line: pre-step
value loss (97-98), first policy forward pass giving entropy and pre-step
policy loss (100-102), second forward pass, cross-worker KL and its check
(104-108), policy loss and one policy step (109-112), 80 value steps
(114-120), `logger.store` (122-129) and the return (130).  `self.maxkl`
is `0.01` from line 81. -/
def update (M : Model P V) (pol : P) (val : V)
    (states acts advs rets logprobs_old : List ℚ) : Result P V :=
  let values := M.valuesAt val states
  let val_loss_old := calc_val_loss values rets
  let logp0 := M.logpAt pol states acts
  let approx_ent := listMean (logp0.map (fun x => -x))
  let pol_loss_old := calc_pol_loss logp0 advs
  let logp := M.logpAt pol states acts
  let kl := M.mpiAvg (listMean (List.zipWith (fun a b => a - b) logprobs_old logp))
  let warnEvs : List Ev := if kl > 3 / 2 * (1 / 100) then [Ev.klWarn] else []
  let pol_loss := calc_pol_loss logp advs
  let pol1 := M.polStepOn pol
  let vres := valueLoop M states rets 80 val val_loss_old
  let val_loss := vres.2.1
  ⟨Ev.bufGet :: Ev.klCheck kl :: warnEvs ++ Ev.polStep :: vres.2.2 ++ [Ev.store],
   ⟨pol_loss_old, val_loss_old, kl, approx_ent,
    pol_loss - pol_loss_old, val_loss - val_loss_old⟩,
   (pol_loss, val_loss, approx_ent, kl),
   pol1, vres.1⟩

/-- Counts the policy optimizer steps in a trace. -/
def countPolSteps (evs : List Ev) : ℕ :=
  (evs.filter (fun e => e = Ev.polStep)).length

/-- Counts the value optimizer steps in a trace. -/
def countValSteps (evs : List Ev) : ℕ :=
  (evs.filter (fun e => match e with | Ev.valStep _ _ => true | _ => false)).length

/-- `true` iff some policy optimizer step occurs strictly before some KL
check in the trace: the order claim C2 asserts of every call. -/
def stepBeforeCheck : List Ev → Bool
  | [] => false
  | Ev.polStep :: rest => rest.any (fun e => match e with | Ev.klCheck _ => true | _ => false)
  | _ :: rest => stepBeforeCheck rest

/-- `true` iff the trace holds a KL check at all. -/
def hasKlCheck (evs : List Ev) : Bool :=
  evs.any (fun e => match e with | Ev.klCheck _ => true | _ => false)

/-- `true` iff some KL check occurs strictly before some policy optimizer
step in the trace: the order the source actually produces. -/
def checkBeforeStep : List Ev → Bool
  | [] => false
  | Ev.klCheck _ :: rest => rest.any (fun e => e = Ev.polStep)
  | _ :: rest => checkBeforeStep rest

/-- The value-step events of a trace, in order. -/
def valStepsOf (evs : List Ev) : List Ev :=
  evs.filter (fun e => match e with | Ev.valStep _ _ => true | _ => false)

/-- Counts the `buffer.get()` calls in a trace. -/
def countBufGets (evs : List Ev) : ℕ :=
  (evs.filter (fun e => e = Ev.bufGet)).length

/-- The KL estimate `a2c_old.py` line 106 computes:
`mpi_avg((logprobs_old - logp).mean().item())`, with `logp` the second
forward pass under the entry policy parameters. -/
def klOf (M : Model P V) (pol : P) (states acts logprobs_old : List ℚ) : ℚ :=
  M.mpiAvg (listMean
    (List.zipWith (fun a b => a - b) logprobs_old (M.logpAt pol states acts)))

/-- The approximate entropy `a2c_old.py` line 101 computes:
`(-logp).mean()` under the entry policy parameters. -/
def entOf (M : Model P V) (pol : P) (states acts : List ℚ) : ℚ :=
  listMean ((M.logpAt pol states acts).map (fun x => -x))

/-- A concrete instantiation of the collaborators, with one-parameter
networks (`P = V = ℚ`): the policy forward pass returns its parameter as
the single log-probability, the value forward pass returns its parameter
as the single prediction, and each Adam step adds `1` to the parameter. -/
def cModel : Model ℚ ℚ where
  logpAt := fun p _ _ => [p]
  valuesAt := fun v _ => [v]
  polStepOn := fun p => p + 1
  valStepOn := fun v => v + 1
  mpiAvg := fun x => x

/-- One concrete `A2C.update()` call on `cModel`: both parameters start at
`0`, batch of one transition with advantage `1` and everything else `0`. -/
def cRun : Result ℚ ℚ := update cModel 0 0 [0] [0] [1] [0] [0]

end A2C

section Helpers

theorem clamp_bounds (x lo hi : ℚ) (h : lo ≤ hi) :
    lo ≤ clamp x lo hi ∧ clamp x lo hi ≤ hi :=
  ⟨le_min (le_max_right x lo) h, min_le_right _ _⟩

theorem backup_getElem (gamma : ℚ) (r d q : List ℚ) (i : ℕ)
    (h1 : i < r.length) (h2 : i < d.length) (h3 : i < q.length) :
    (TD3.backup gamma r d q)[i]? = some (r[i] + gamma * (1 - d[i]) * q[i]) := by
  have hb : i < (TD3.backup gamma r d q).length := by
    simp [TD3.backup]; omega
  rw [List.getElem?_eq_getElem hb]
  simp [TD3.backup, List.getElem_zipWith, List.getElem_zip]

theorem q_pi_targ_getElem (q1t q2t : List ℚ) (i : ℕ)
    (h1 : i < q1t.length) (h2 : i < q2t.length) :
    (TD3.q_pi_targ q1t q2t)[i]? = some (min q1t[i] q2t[i]) := by
  have hb : i < (TD3.q_pi_targ q1t q2t).length := by
    simp [TD3.q_pi_targ]; omega
  rw [List.getElem?_eq_getElem hb]
  simp [TD3.q_pi_targ, List.getElem_zipWith]

theorem q_pi_targ_length (q1t q2t : List ℚ) :
    (TD3.q_pi_targ q1t q2t).length = min q1t.length q2t.length := by
  simp [TD3.q_pi_targ]

theorem sq_sum_zero_iff :
    ∀ (vals rets : List ℚ), vals.length = rets.length →
      0 ≤ (List.zipWith (fun v r => (v - r) ^ 2) vals rets).sum ∧
      ((List.zipWith (fun v r => (v - r) ^ 2) vals rets).sum = 0 ↔ vals = rets)
  | [], [], _ => by simp
  | [], r :: rs, h => by simp at h
  | v :: vs, [], h => by simp at h
  | v :: vs, r :: rs, h => by
      have ih := sq_sum_zero_iff vs rs (by simpa using h)
      constructor
      · simpa using add_nonneg (sq_nonneg (v - r)) ih.1
      · rw [List.zipWith_cons_cons, List.sum_cons,
          add_eq_zero_iff_of_nonneg (sq_nonneg (v - r)) ih.1]
        constructor
        · rintro ⟨hsq, hrest⟩
          have hv : v = r := by
            have := pow_eq_zero_iff (n := 2) (by norm_num) |>.mp hsq
            linarith [sub_eq_zero.mp this]
          simp [hv, ih.2.mp hrest]
        · intro hc
          rcases List.cons_eq_cons.mp hc with ⟨hv, ht⟩
          exact ⟨by simp [hv], ih.2.mpr ht⟩

end Helpers

/-- C1: the claim says TD3's policy step disables `requires_grad` on every
Q-function parameter before the policy loss and re-enables it after.  In
the code, `self.q_params` is the `itertools.chain` iterator built in
`setup_optimizers` and already drained by the `Adam` constructor, so the
freeze loop `for p in self.q_params` iterates zero parameters: after
`setup_optimizers`, the freeze loop leaves every Q parameter's
`requires_grad` flag `true`, for any number of Q parameters, in
particular for a single parameter. -/
theorem freeze_noop_C1 :
    (∀ nq : ℕ,
      (TD3.setup_optimizers nq).q_params.remaining = [] ∧
      (TD3.freezeQ (TD3.setup_optimizers nq)).requiresGrad =
        List.replicate nq true) ∧
    (TD3.freezeQ (TD3.setup_optimizers 1)).requiresGrad = [true] := by
  have h : ∀ nq : ℕ,
      (TD3.setup_optimizers nq).q_params.remaining = [] ∧
      (TD3.freezeQ (TD3.setup_optimizers nq)).requiresGrad =
        List.replicate nq true := by
    intro nq
    constructor
    · simp [TD3.setup_optimizers, TD3.iterDrain]
    · simp [TD3.setup_optimizers, TD3.iterDrain, TD3.freezeQ, TD3.iterSetGrad]
  exact ⟨h, by simpa using (h 1).2⟩

/-- C3: TD3's Bellman backup is elementwise
`reward + gamma * (1 - done) * min(target_Q1, target_Q2)`; whenever
`done = 1` it equals the reward exactly, independent of `gamma` and the
target Q-values; and on the concrete batch `gamma = 0.99`,
`done = [0, 1]`, `reward = [1, 2]`, target-Q minimum `[5, 5]` the backups
are `[5.95, 2]`. -/
theorem bellman_backup_C3 :
    (∀ (gamma : ℚ) (r d q1t q2t : List ℚ) (i : ℕ)
        (h1 : i < r.length) (h2 : i < d.length)
        (h3 : i < q1t.length) (h4 : i < q2t.length),
        (TD3.backup gamma r d (TD3.q_pi_targ q1t q2t))[i]? =
          some (r[i] + gamma * (1 - d[i]) * min q1t[i] q2t[i]) ∧
        (d[i] = 1 →
          (TD3.backup gamma r d (TD3.q_pi_targ q1t q2t))[i]? = some r[i])) ∧
    TD3.backup (99 / 100) [1, 2] [0, 1] (TD3.q_pi_targ [5, 7] [6, 5]) =
      [119 / 20, 2] := by
  constructor
  · intro gamma r d q1t q2t i h1 h2 h3 h4
    have hq : i < (TD3.q_pi_targ q1t q2t).length := by
      rw [q_pi_targ_length]; omega
    have hmain := backup_getElem gamma r d (TD3.q_pi_targ q1t q2t) i h1 h2 hq
    have hqe := q_pi_targ_getElem q1t q2t i h3 h4
    have hqv : (TD3.q_pi_targ q1t q2t)[i] = min q1t[i] q2t[i] := by
      have := List.getElem?_eq_getElem hq
      rw [this] at hqe
      exact Option.some_injective _ hqe
    rw [hqv] at hmain
    refine ⟨hmain, fun hd => ?_⟩
    rw [hmain, hd]
    norm_num
  · norm_num [TD3.backup, TD3.q_pi_targ]

/-- Witness for C3: at index 1 of the concrete batch the done flag is `1`
and the backup is exactly the reward `2`. -/
theorem bellman_backup_C3_witness :
    (TD3.backup (99 / 100) [1, 2] [0, 1] (TD3.q_pi_targ [5, 7] [6, 5]))[1]? =
      some 2 := by
  have h := (bellman_backup_C3.1 (99 / 100) [1, 2] [0, 1] [5, 7] [6, 5] 1
    (by norm_num) (by norm_num) (by norm_num) (by norm_num)).2 (by norm_num)
  simpa using h

/-- C4: the polyak target blend replaces each target parameter tensor `t`
with `polyak * t + (1 - polyak) * w` elementwise (where `w` is its online
counterpart), over the whole zipped parameter list, for arbitrary tensor
lengths; and on the concrete input `polyak = 0.9`, online `1`, target `0`
the new target is `0.1`. -/
theorem polyak_blend_C4 :
    (∀ (polyak : ℚ) (targ online : List (List ℚ)) (i : ℕ)
        (h1 : i < targ.length) (h2 : i < online.length),
        (TD3.polyakUpdate polyak targ online)[i]? =
          some (TD3.polyakBlendParam polyak targ[i] online[i]) ∧
        ∀ (j : ℕ) (h3 : j < targ[i].length) (h4 : j < online[i].length),
          (TD3.polyakBlendParam polyak targ[i] online[i])[j]? =
            some (polyak * targ[i][j] + (1 - polyak) * online[i][j])) ∧
    TD3.polyakUpdate (9 / 10) [[0]] [[1]] = [[1 / 10]] := by
  constructor
  · intro polyak targ online i h1 h2
    constructor
    · have hb : i < (TD3.polyakUpdate polyak targ online).length := by
        simp [TD3.polyakUpdate]; omega
      rw [List.getElem?_eq_getElem hb]
      simp [TD3.polyakUpdate, List.getElem_zipWith]
    · intro j h3 h4
      have hb : j < (TD3.polyakBlendParam polyak targ[i] online[i]).length := by
        simp [TD3.polyakBlendParam]; omega
      rw [List.getElem?_eq_getElem hb]
      simp [TD3.polyakBlendParam, List.getElem_zipWith]
      ring
  · norm_num [TD3.polyakUpdate, TD3.polyakBlendParam]

/-- Witness for C4: the elementwise formula applied at the concrete input
`polyak = 0.9`, target `[[0]]`, online `[[1]]`, index `(0, 0)`. -/
theorem polyak_blend_C4_witness :
    (TD3.polyakUpdate (9 / 10) [[0]] [[1]])[0]? =
      some (TD3.polyakBlendParam (9 / 10) [0] [1]) ∧
    (TD3.polyakBlendParam (9 / 10) [0] [1])[0]? = some (1 / 10) := by
  have h := polyak_blend_C4.1 (9 / 10) [[0]] [[1]] 0 (by norm_num) (by norm_num)
  refine ⟨by simpa using h.1, ?_⟩
  have h2 := h.2 0 (by simp) (by simp)
  norm_num at h2 ⊢
  convert h2 using 2

/-- C7: the clipped target-smoothing noise lies elementwise in
`[-noise_clip, noise_clip]`, and the smoothed target action (target policy
output plus clipped noise, clipped to the action bounds) lies elementwise
in `[-act_limit, act_limit]`, whenever `noise_clip ≥ 0` and
`act_limit ≥ 0`, for every sampled noise tensor. -/
theorem smoothing_bounds_C7 (noise_clip act_limit : ℚ)
    (h1 : 0 ≤ noise_clip) (h2 : 0 ≤ act_limit) (pi_targ eps : List ℚ) :
    (∀ x ∈ TD3.clippedEpsilon noise_clip eps,
      -noise_clip ≤ x ∧ x ≤ noise_clip) ∧
    (∀ x ∈ TD3.smoothedAction noise_clip act_limit pi_targ eps,
      -act_limit ≤ x ∧ x ≤ act_limit) := by
  constructor
  · intro x hx
    rcases List.mem_map.mp hx with ⟨e, _, rfl⟩
    exact clamp_bounds e (-noise_clip) noise_clip (by linarith)
  · intro x hx
    rcases List.mem_map.mp hx with ⟨e, _, rfl⟩
    exact clamp_bounds e (-act_limit) act_limit (by linarith)

/-- Witness for C7: concrete configuration `noise_clip = 1/2`,
`act_limit = 1`, one-element target action `[2]` and raw noise `[3]`. -/
theorem smoothing_bounds_C7_witness :
    (∀ x ∈ TD3.clippedEpsilon (1 / 2) [3], -(1 / 2 : ℚ) ≤ x ∧ x ≤ 1 / 2) ∧
    (∀ x ∈ TD3.smoothedAction (1 / 2) 1 [2] [3], -(1 : ℚ) ≤ x ∧ x ≤ 1) :=
  smoothing_bounds_C7 (1 / 2) 1 (by norm_num) (by norm_num) [2] [3]

/-- C8: A2C's value loss `mean((vals - rets)^2)` is non-negative and is
zero exactly when every predicted value equals the corresponding return,
for equally-shaped non-empty inputs. -/
theorem val_loss_mse_C8 (vals rets : List ℚ)
    (h1 : vals.length = rets.length) (h2 : vals ≠ []) :
    0 ≤ A2C.calc_val_loss vals rets ∧
    (A2C.calc_val_loss vals rets = 0 ↔ vals = rets) := by
  have hs := sq_sum_zero_iff vals rets h1
  have hlen : (List.zipWith (fun v r => (v - r) ^ 2) vals rets).length =
      vals.length := by
    simp [h1]
  have hpos : (0 : ℚ) < vals.length := by
    have : vals.length ≠ 0 := fun h => h2 (List.length_eq_zero.mp h)
    exact_mod_cast Nat.pos_of_ne_zero this
  unfold A2C.calc_val_loss listMean
  rw [hlen]
  constructor
  · exact div_nonneg hs.1 (le_of_lt hpos)
  · rw [div_eq_zero_iff]
    constructor
    · rintro (h | h)
      · exact hs.2.mp h
      · exact absurd h (ne_of_gt hpos)
    · intro h
      exact Or.inl (hs.2.mpr h)

/-- Witness for C8: concrete predictions `[1, 2]` against returns
`[1, 3]` give a non-negative loss which is zero iff the lists were equal
(they are not). -/
theorem val_loss_mse_C8_witness :
    0 ≤ A2C.calc_val_loss [1, 2] [1, 3] ∧
    (A2C.calc_val_loss [1, 2] [1, 3] = 0 ↔ ([1, 2] : List ℚ) = [1, 3]) :=
  val_loss_mse_C8 [1, 2] [1, 3] (by norm_num) (by simp)


/-- C5: the TD3 update with `timer % policy_delay != 0` performs only the
Q-function gradient step, leaving the policy parameters and every target
parameter unchanged; with `timer % policy_delay == 0` it additionally
performs the policy gradient step and the polyak target blend (the blend
reading the online parameters after both steps). -/
theorem delayed_update_C5 (qStep polStep : List (List ℚ) → List (List ℚ))
    (polyak : ℚ) (policy_delay timer : ℕ) (s : TD3.MState)
    (h : 0 < policy_delay) :
    (timer % policy_delay ≠ 0 →
      TD3.update qStep polStep polyak policy_delay timer s =
        ⟨s.pol, qStep s.q, s.targ⟩) ∧
    (timer % policy_delay = 0 →
      TD3.update qStep polStep polyak policy_delay timer s =
        ⟨polStep s.pol, qStep s.q,
         TD3.polyakUpdate polyak s.targ (polStep s.pol ++ qStep s.q)⟩) := by
  constructor
  · intro hne
    simp [TD3.update, hne]
  · intro he
    simp [TD3.update, he]

/-- Witness for C5: with `policy_delay = 2` and `timer = 1` the state keeps
its policy and target parameters (identity Q step shown for concreteness). -/
theorem delayed_update_C5_witness :
    TD3.update id id (1 / 2) 2 1 ⟨[[1]], [[2]], [[3]]⟩ =
      ⟨[[1]], [[2]], [[3]]⟩ :=
  (delayed_update_C5 id id (1 / 2) 2 1 ⟨[[1]], [[2]], [[3]]⟩
    (by norm_num)).1 (by norm_num)

section A2CHelpers

theorem valueLoop_zero {P V : Type} (M : A2C.Model P V) (states rets : List ℚ)
    (v : V) (last : ℚ) :
    A2C.valueLoop M states rets 0 v last = (v, last, []) := rfl

theorem valueLoop_succ {P V : Type} (M : A2C.Model P V) (states rets : List ℚ)
    (n : ℕ) (v : V) (last : ℚ) :
    A2C.valueLoop M states rets (n + 1) v last =
      ((A2C.valueLoop M states rets n (M.valStepOn v)
          (A2C.calc_val_loss (M.valuesAt v states) rets)).1,
       (A2C.valueLoop M states rets n (M.valStepOn v)
          (A2C.calc_val_loss (M.valuesAt v states) rets)).2.1,
       A2C.Ev.valStep states rets ::
         (A2C.valueLoop M states rets n (M.valStepOn v)
            (A2C.calc_val_loss (M.valuesAt v states) rets)).2.2) := rfl

theorem valueLoop_params_events {P V : Type} (M : A2C.Model P V)
    (states rets : List ℚ) :
    ∀ (n : ℕ) (v : V) (last : ℚ),
      (A2C.valueLoop M states rets n v last).1 = (M.valStepOn)^[n] v ∧
      (A2C.valueLoop M states rets n v last).2.2 =
        List.replicate n (A2C.Ev.valStep states rets) := by
  intro n
  induction n with
  | zero => intro v last; simp [valueLoop_zero]
  | succ k ih =>
      intro v last
      have h := ih (M.valStepOn v)
        (A2C.calc_val_loss (M.valuesAt v states) rets)
      rw [valueLoop_succ]
      exact ⟨by rw [Function.iterate_succ_apply]; exact h.1,
        by rw [List.replicate_succ]; simp [h.2]⟩

theorem valueLoop_lastLoss {P V : Type} (M : A2C.Model P V)
    (states rets : List ℚ) :
    ∀ (n : ℕ) (v : V) (last : ℚ),
      (A2C.valueLoop M states rets (n + 1) v last).2.1 =
        A2C.calc_val_loss (M.valuesAt ((M.valStepOn)^[n] v) states) rets := by
  intro n
  induction n with
  | zero =>
      intro v last
      rw [valueLoop_succ, valueLoop_zero]
      simp
  | succ k ih =>
      intro v last
      rw [valueLoop_succ]
      have h := ih (M.valStepOn v)
        (A2C.calc_val_loss (M.valuesAt v states) rets)
      rw [Function.iterate_succ_apply]
      exact h

theorem update_trace {P V : Type} (M : A2C.Model P V) (pol : P) (val : V)
    (states acts advs rets lp : List ℚ) :
    (A2C.update M pol val states acts advs rets lp).trace =
      A2C.Ev.bufGet :: A2C.Ev.klCheck (A2C.klOf M pol states acts lp) ::
        (if A2C.klOf M pol states acts lp > 3 / 2 * (1 / 100)
          then [A2C.Ev.klWarn] else []) ++
        A2C.Ev.polStep :: List.replicate 80 (A2C.Ev.valStep states rets) ++
        [A2C.Ev.store] := by
  have hv := (valueLoop_params_events M states rets 80 val
    (A2C.calc_val_loss (M.valuesAt val states) rets)).2
  simp only [A2C.update, A2C.klOf, hv]

theorem update_stored {P V : Type} (M : A2C.Model P V) (pol : P) (val : V)
    (states acts advs rets lp : List ℚ) :
    (A2C.update M pol val states acts advs rets lp).stored =
      ⟨A2C.calc_pol_loss (M.logpAt pol states acts) advs,
       A2C.calc_val_loss (M.valuesAt val states) rets,
       A2C.klOf M pol states acts lp,
       A2C.entOf M pol states acts,
       0,
       A2C.calc_val_loss (M.valuesAt ((M.valStepOn)^[79] val) states) rets -
         A2C.calc_val_loss (M.valuesAt val states) rets⟩ := by
  have hv := valueLoop_lastLoss M states rets 79 val
    (A2C.calc_val_loss (M.valuesAt val states) rets)
  simp only [A2C.update, A2C.klOf, A2C.entOf]
  rw [show (79 + 1 : ℕ) = 80 from rfl] at hv
  rw [hv, sub_self]

theorem update_ret {P V : Type} (M : A2C.Model P V) (pol : P) (val : V)
    (states acts advs rets lp : List ℚ) :
    (A2C.update M pol val states acts advs rets lp).ret =
      (A2C.calc_pol_loss (M.logpAt pol states acts) advs,
       A2C.calc_val_loss (M.valuesAt ((M.valStepOn)^[79] val) states) rets,
       A2C.entOf M pol states acts,
       A2C.klOf M pol states acts lp) := by
  have hv := valueLoop_lastLoss M states rets 79 val
    (A2C.calc_val_loss (M.valuesAt val states) rets)
  simp only [A2C.update, A2C.klOf, A2C.entOf]
  rw [show (79 + 1 : ℕ) = 80 from rfl] at hv
  rw [hv]

theorem update_params {P V : Type} (M : A2C.Model P V) (pol : P) (val : V)
    (states acts advs rets lp : List ℚ) :
    (A2C.update M pol val states acts advs rets lp).polParams =
      M.polStepOn pol ∧
    (A2C.update M pol val states acts advs rets lp).valParams =
      (M.valStepOn)^[80] val := by
  have hv := (valueLoop_params_events M states rets 80 val
    (A2C.calc_val_loss (M.valuesAt val states) rets)).1
  constructor
  · simp only [A2C.update]
  · simp only [A2C.update, hv]

end A2CHelpers

/-- C2 (counterexample): the claim says that in every `A2C.update()` call
the policy optimizer step precedes the KL check.  On the concrete call
`cRun` the trace contains a KL check and exactly one policy step, yet no
policy step occurs before any KL check: the check runs first. -/
theorem kl_order_cex_C2 :
    A2C.hasKlCheck A2C.cRun.trace = true ∧
    A2C.countPolSteps A2C.cRun.trace = 1 ∧
    A2C.stepBeforeCheck A2C.cRun.trace = false := by
  have hkl : ¬ A2C.klOf A2C.cModel 0 [0] [0] [0] > 3 / 2 * (1 / 100) := by
    norm_num [A2C.klOf, A2C.cModel, listMean]
  have ht := update_trace A2C.cModel 0 0 [0] [0] [1] [0] [0]
  rw [if_neg hkl] at ht
  simp only [A2C.cRun]
  rw [ht]
  decide

/-- C2 (amended): in every `A2C.update()` call the KL sanity check runs
*before* the policy optimizer step is applied: the trace contains the KL
check, exactly one policy step, some KL check occurs strictly before a
policy step, and no policy step occurs before any KL check. -/
theorem kl_check_order_C2 {P V : Type} (M : A2C.Model P V) (pol : P) (val : V)
    (states acts advs rets lp : List ℚ) :
    A2C.hasKlCheck (A2C.update M pol val states acts advs rets lp).trace =
      true ∧
    A2C.countPolSteps (A2C.update M pol val states acts advs rets lp).trace =
      1 ∧
    A2C.checkBeforeStep (A2C.update M pol val states acts advs rets lp).trace =
      true ∧
    A2C.stepBeforeCheck (A2C.update M pol val states acts advs rets lp).trace =
      false := by
  rw [update_trace]
  split_ifs <;>
    simp [A2C.hasKlCheck, A2C.countPolSteps, A2C.checkBeforeStep,
      A2C.stepBeforeCheck, List.any_append, List.any_replicate,
      List.filter_append, List.filter_replicate]

/-- C6: every `A2C.update()` call performs exactly one policy optimizer
step and exactly 80 value optimizer steps, independent of the batch, and
every value step uses the same `(states, rets)` batch obtained from the
single `buffer.get()` call. -/
theorem a2c_step_counts_C6 {P V : Type} (M : A2C.Model P V) (pol : P)
    (val : V) (states acts advs rets lp : List ℚ) :
    A2C.countBufGets (A2C.update M pol val states acts advs rets lp).trace =
      1 ∧
    A2C.countPolSteps (A2C.update M pol val states acts advs rets lp).trace =
      1 ∧
    A2C.valStepsOf (A2C.update M pol val states acts advs rets lp).trace =
      List.replicate 80 (A2C.Ev.valStep states rets) ∧
    A2C.countValSteps (A2C.update M pol val states acts advs rets lp).trace =
      80 := by
  rw [update_trace]
  by_cases hkl : A2C.klOf M pol states acts lp > 3 / 2 * (1 / 100) <;>
    simp [hkl, A2C.countBufGets, A2C.countPolSteps, A2C.valStepsOf,
      A2C.countValSteps, List.filter_append, List.filter_replicate]

/-- C9: the KL warning is non-fatal: the warning event appears in the
trace exactly when the stored KL exceeds `1.5 * 0.01`, and for every KL
value the policy step, the 80 value steps, the final `logger.store` and
the normal return of `(pol_loss, val_loss, approx_ent, kl)` all still
occur. -/
theorem kl_warn_nonfatal_C9 {P V : Type} (M : A2C.Model P V) (pol : P)
    (val : V) (states acts advs rets lp : List ℚ) :
    (A2C.Ev.klWarn ∈ (A2C.update M pol val states acts advs rets lp).trace ↔
      (A2C.update M pol val states acts advs rets lp).stored.KL >
        3 / 2 * (1 / 100)) ∧
    A2C.countPolSteps (A2C.update M pol val states acts advs rets lp).trace =
      1 ∧
    A2C.countValSteps (A2C.update M pol val states acts advs rets lp).trace =
      80 ∧
    (A2C.update M pol val states acts advs rets lp).trace.getLast? =
      some A2C.Ev.store ∧
    (A2C.update M pol val states acts advs rets lp).ret =
      ((A2C.update M pol val states acts advs rets lp).stored.PolicyLoss +
        (A2C.update M pol val states acts advs rets lp).stored.DeltaPolLoss,
       (A2C.update M pol val states acts advs rets lp).stored.ValueLoss +
        (A2C.update M pol val states acts advs rets lp).stored.DeltaValLoss,
       (A2C.update M pol val states acts advs rets lp).stored.Entropy,
       (A2C.update M pol val states acts advs rets lp).stored.KL) := by
  refine ⟨?_, ?_, ?_, ?_, ?_⟩
  · rw [update_trace, update_stored]
    by_cases hkl : A2C.klOf M pol states acts lp > 3 / 2 * (1 / 100) <;>
      simp [hkl, List.mem_append, List.mem_replicate]
  · rw [update_trace]
    by_cases hkl : A2C.klOf M pol states acts lp > 3 / 2 * (1 / 100) <;>
      simp [hkl, A2C.countPolSteps, List.filter_append, List.filter_replicate]
  · rw [update_trace]
    by_cases hkl : A2C.klOf M pol states acts lp > 3 / 2 * (1 / 100) <;>
      simp [hkl, A2C.countValSteps, List.filter_append, List.filter_replicate]
  · rw [update_trace]
    exact List.getLast?_concat _
  · rw [update_ret, update_stored]
    simp [Prod.ext_iff]

/-- C10 (counterexample): the claim says `DeltaPolLoss` is the post-step
policy loss minus the pre-step policy loss.  On the concrete call `cRun`
the stored `DeltaPolLoss` differs from that quantity, because `pol_loss`
is computed from a forward pass taken before the optimizer step. -/
theorem delta_pol_loss_cex_C10 :
    A2C.cRun.stored.DeltaPolLoss ≠
      A2C.calc_pol_loss
          (A2C.cModel.logpAt (A2C.cModel.polStepOn 0) [0] [0]) [1] -
        A2C.calc_pol_loss (A2C.cModel.logpAt 0 [0] [0]) [1] := by
  simp only [A2C.cRun]
  rw [update_stored]
  norm_num [A2C.cModel, A2C.calc_pol_loss, listMean]

/-- C10 (amended): the metrics stored under `PolicyLoss` and `ValueLoss`
are the losses evaluated with the parameters at entry to the call;
`DeltaPolLoss` is the difference of two policy-loss evaluations that both
use the entry policy parameters (hence identically zero); `DeltaValLoss`
and the returned `val_loss` use the value parameters after 79 of the 80
value steps (the loss computed in the last loop iteration before its
step); the returned `pol_loss` is the entry-parameters policy loss; and
the parameter states advance by one policy step and 80 value steps. -/
theorem stored_losses_C10 {P V : Type} (M : A2C.Model P V) (pol : P)
    (val : V) (states acts advs rets lp : List ℚ) :
    (A2C.update M pol val states acts advs rets lp).stored.PolicyLoss =
      A2C.calc_pol_loss (M.logpAt pol states acts) advs ∧
    (A2C.update M pol val states acts advs rets lp).stored.ValueLoss =
      A2C.calc_val_loss (M.valuesAt val states) rets ∧
    (A2C.update M pol val states acts advs rets lp).stored.DeltaPolLoss =
      0 ∧
    (A2C.update M pol val states acts advs rets lp).stored.DeltaValLoss =
      A2C.calc_val_loss (M.valuesAt ((M.valStepOn)^[79] val) states) rets -
        A2C.calc_val_loss (M.valuesAt val states) rets ∧
    (A2C.update M pol val states acts advs rets lp).ret =
      (A2C.calc_pol_loss (M.logpAt pol states acts) advs,
       A2C.calc_val_loss (M.valuesAt ((M.valStepOn)^[79] val) states) rets,
       A2C.entOf M pol states acts,
       A2C.klOf M pol states acts lp) ∧
    (A2C.update M pol val states acts advs rets lp).polParams =
      M.polStepOn pol ∧
    (A2C.update M pol val states acts advs rets lp).valParams =
      (M.valStepOn)^[80] val := by
  have hp := update_params M pol val states acts advs rets lp
  rw [update_stored, update_ret]
  exact ⟨rfl, rfl, rfl, rfl, rfl, hp.1, hp.2⟩
